import Mathlib

/-!
Verification of the atlas-sync replicated directory-tree engine.

The development shallowly embeds the Rust sources under `src/atlas-sync/src/`:
the tree CRDT (`crdt.rs`), the replica index (`crdt_index.rs`), the floodsub
peer-event handler (`p2p_network.rs`), the filesystem-event translator
(`watcher.rs`), and `EntryMeta::from_path` (`fswrapper.rs`).

Note on the data model: `crdt.rs` as checked in declares
`Mutation::{Insert, Edit, Delete}` and `JsonNode::{Map, List, File, Tombstone}`
with `Uuid` replica ids, while every caller in the crate (`crdt_index.rs`,
`watcher.rs`, `p2p_network.rs`) uses `Mutation::New`, `JsonNode::Entry(EntryMeta)`,
string replica ids, and a `VersionVector` type that `crdt.rs` does not define.
We embed the data model the crate actually uses: the `apply` algorithm follows
`JsonNode::apply` in `crdt.rs` (lines 53-99) verbatim, with `New` playing the
role of `Insert`; the `VersionVector` type, absent from the sources, is
modelled from the spec (section 3).

Maps: Rust's `BTreeMap<String, JsonNode>` is embedded as an association list
with in-place replacement on existing keys. All map states reachable in the
theorems below are built by this insertion, so list equality coincides with
map equality wherever trees are compared.

Rust `u64` counters are embedded as `Nat`: the Lamport clock only ever
increments by 1 per operation, so overflow is unreachable in any execution
the claims quantify over.
-/

namespace AtlasSync

/-- Embeds `LamportTimestamp` (crdt.rs lines 5-9): a Lamport clock value
paired with the issuing replica's id. The crate stores replica ids as
strings (`PEER_ID.to_string()` in crdt_index.rs line 40). -/
structure LamportTimestamp where
  counter : Nat
  replica_id : String
deriving DecidableEq

/-- Embeds `EntryMeta` (fswrapper.rs lines 18-30): the metadata payload
stored at a tree leaf. -/
structure EntryMeta where
  name : String
  path : String
  is_directory : Bool
  accessed : Option Nat
  modified : Option Nat
  created : Option Nat
  permissions : Option Nat
  size : Option Nat
  owner : Option String
  content_hash : Option String
deriving DecidableEq

/-- Embeds `JsonNode` as used throughout the crate: a `Map` of path segment
to child node, a leaf `Entry(EntryMeta)` (crdt_index.rs line 203,
watcher.rs line 128), or a `Tombstone`. -/
inductive JsonNode where
  | mapN (entries : List (String × JsonNode))
  | entry (meta : EntryMeta)
  | tomb

/-- Embeds `Mutation` as used throughout the crate: `New` (crdt_index.rs
line 64, the variant `crdt.rs` names `Insert`), `Edit`, `Delete`. -/
inductive Mutation where
  | new (key : String) (value : JsonNode)
  | edit (key : String) (value : JsonNode)
  | delete (key : String)

/-- Embeds `Operation` (crdt.rs lines 21-27). `deps` is a `HashSet` in Rust;
we embed it as a duplicate-tolerant list queried only through membership. -/
structure Operation where
  id : LamportTimestamp
  deps : List LamportTimestamp
  cursor : List String
  mutation : Mutation

/-- Lookup in the association-list embedding of `BTreeMap<String, JsonNode>`. -/
def listFind (k : String) : List (String × JsonNode) → Option JsonNode
  | [] => none
  | (k', v') :: rest => if k = k' then some v' else listFind k rest

/-- Insertion in the association-list embedding of `BTreeMap::insert`:
replaces the value in place when the key is present, appends otherwise. -/
def listInsert (k : String) (v : JsonNode) : List (String × JsonNode) → List (String × JsonNode)
  | [] => [(k, v)]
  | (k', v') :: rest =>
      if k = k' then (k, v) :: rest else (k', v') :: listInsert k v rest

/-- Embeds the Rust `matches!(node, JsonNode::Tombstone)` variant test. -/
def JsonNode.isTomb : JsonNode → Bool
  | .tomb => true
  | _ => false

/-- Embeds `HashSet<LamportTimestamp>::insert`: set-semantics insertion. -/
def tsInsert (ts : LamportTimestamp) (s : List LamportTimestamp) : List LamportTimestamp :=
  if ts ∈ s then s else ts :: s

/-- Embeds the cursor walk and mutation step of `JsonNode::apply`
(crdt.rs lines 62-95): walk `cursor` from `node`, auto-creating an empty
`Map` at each absent segment (`map.entry(..).or_insert(new_map())`), fail
if a non-`Map` is hit; then apply the mutation at the node reached.
The returned tree keeps the auto-created maps even when the walk or the
mutation step fails, exactly as the in-place Rust mutation does. -/
def applyGo : JsonNode → List String → Mutation → JsonNode × Bool
  | node, [], mu =>
      match node, mu with
      | .mapN m, .new k v => (.mapN (listInsert k v m), true)
      | .mapN m, .delete k => (.mapN (listInsert k .tomb m), true)
      | .mapN m, .edit k v =>
          match listFind k m with
          | some w => if w.isTomb then (.mapN m, false) else (.mapN (listInsert k v m), true)
          | none => (.mapN m, false)
      | n, _ => (n, false)
  | .mapN m, seg :: rest, mu =>
      let child := (listFind seg m).getD (.mapN [])
      let r := applyGo child rest mu
      (.mapN (listInsert seg r.1 m), r.2)
  | node, _ :: _, _ => (node, false)

/-- Embeds `JsonNode::apply` (crdt.rs lines 53-99): fail without touching
anything if `op.deps` is not a subset of `applied_ops`; otherwise walk the
cursor and apply the mutation (both of which mutate the tree in place even
on failure), and record `op.id` in `applied_ops` only on success.
Returns (tree after, applied set after, success flag). -/
def JsonNode.apply (node : JsonNode) (op : Operation) (applied_ops : List LamportTimestamp) :
    JsonNode × List LamportTimestamp × Bool :=
  if ¬ (∀ d ∈ op.deps, d ∈ applied_ops) then (node, applied_ops, false)
  else
    let r := applyGo node op.cursor op.mutation
    if r.2 then (r.1, tsInsert op.id applied_ops, true) else (r.1, applied_ops, false)

/-- Modelled from the spec: `VersionVector` is referenced by `crdt_index.rs`
(line 2) but its definition is absent from the checked-in `crdt.rs`.
Spec section 3: a mapping from replicaId to the highest counter seen from
that replica. Embedded as an association list. -/
def VersionVector := List (String × Nat)

/-- Modelled from the spec: `VersionVector::record` takes the pointwise max
with the observed timestamp's counter (spec section 3: Records a timestamp
by taking the max). -/
def VersionVector.record (ts : LamportTimestamp) : VersionVector → VersionVector
  | [] => [(ts.replica_id, ts.counter)]
  | (r, c) :: rest =>
      if r = ts.replica_id then (r, max c ts.counter) :: rest
      else (r, c) :: VersionVector.record ts rest

/-- Embeds the `CRDTIndex` struct (crdt_index.rs lines 12-21). -/
structure CRDTIndex where
  replica_id : String
  root : JsonNode
  root_path : String
  clock : Nat
  vv : VersionVector
  applied : List LamportTimestamp
  op_log : List Operation

/-- Embeds `CRDTIndex::new` (crdt_index.rs lines 24-34). -/
def CRDTIndex.new (replica_id root_path : String) : CRDTIndex :=
  { replica_id := replica_id
    root := .mapN []
    root_path := root_path
    clock := 0
    vv := ([] : VersionVector)
    applied := []
    op_log := [] }

/-- Embeds `CRDTIndex::next_ts` (crdt_index.rs lines 36-42): increments the
clock and stamps with the process-wide `PEER_ID` (passed as `peerId`),
not with `self.replica_id`. -/
def CRDTIndex.next_ts (peerId : String) (idx : CRDTIndex) : LamportTimestamp × CRDTIndex :=
  let c := idx.clock + 1
  (⟨c, peerId⟩, { idx with clock := c })

/-- Embeds `CRDTIndex::current_deps` (crdt_index.rs lines 51-60): the version
vector projected back to a set of timestamps. -/
def CRDTIndex.current_deps (idx : CRDTIndex) : List LamportTimestamp :=
  idx.vv.map (fun p => ⟨p.2, p.1⟩)

/-- Embeds `CRDTIndex::record_apply` (crdt_index.rs lines 44-49): applies the
op to the root with the result IGNORED (`let _ = ...`), records the id in the
version vector, and appends the op to the log unconditionally. -/
def CRDTIndex.record_apply (idx : CRDTIndex) (op : Operation) : CRDTIndex :=
  let r := idx.root.apply op idx.applied
  { idx with
    root := r.1
    applied := r.2.1
    vv := VersionVector.record op.id idx.vv
    op_log := idx.op_log ++ [op] }

/-- Embeds `CRDTIndex::insert` (crdt_index.rs lines 80-91): fresh timestamp,
current deps, build a `New` op, record-apply it. -/
def CRDTIndex.insert (peerId : String) (idx : CRDTIndex) (cursor : List String)
    (key : String) (value : JsonNode) : CRDTIndex :=
  let r := idx.next_ts peerId
  let op : Operation := ⟨r.1, r.2.current_deps, cursor, .new key value⟩
  r.2.record_apply op

/-- Embeds `CRDTIndex::edit` (crdt_index.rs lines 93-104). -/
def CRDTIndex.edit (peerId : String) (idx : CRDTIndex) (cursor : List String)
    (key : String) (value : JsonNode) : CRDTIndex :=
  let r := idx.next_ts peerId
  let op : Operation := ⟨r.1, r.2.current_deps, cursor, .edit key value⟩
  r.2.record_apply op

/-- Embeds `CRDTIndex::delete` (crdt_index.rs lines 106-117). -/
def CRDTIndex.delete (peerId : String) (idx : CRDTIndex) (cursor : List String)
    (key : String) : CRDTIndex :=
  let r := idx.next_ts peerId
  let op : Operation := ⟨r.1, r.2.current_deps, cursor, .delete key⟩
  r.2.record_apply op

/-- Embeds `CRDTIndex::make_op` (crdt_index.rs lines 141-150): builds an
operation with a freshly incremented timestamp and the current dependency
frontier; `next_ts` mutates the clock, so the updated index is returned too. -/
def CRDTIndex.make_op (peerId : String) (idx : CRDTIndex) (cursor : List String)
    (mutation : Mutation) : Operation × CRDTIndex :=
  let r := idx.next_ts peerId
  (⟨r.1, r.2.current_deps, cursor, mutation⟩, r.2)

/-- Embeds `CRDTIndex::apply_local_op` (crdt_index.rs lines 62-78): first
dispatches the mutation to `insert`/`edit`/`delete` (each of which already
stamps and record-applies an operation), then builds a SECOND operation via
`make_op` and record-applies that one as well, returning the second op. -/
def CRDTIndex.apply_local_op (peerId : String) (idx : CRDTIndex) (cursor : List String)
    (mutation : Mutation) : Operation × CRDTIndex :=
  let idx1 :=
    match mutation with
    | .new k v => idx.insert peerId cursor k v
    | .edit k v => idx.edit peerId cursor k v
    | .delete k => idx.delete peerId cursor k
  let r := idx1.make_op peerId cursor mutation
  (r.1, r.2.record_apply r.1)

/-- Embeds `CRDTIndex::apply_remote` (crdt_index.rs lines 119-130): reject
duplicates and causally premature ops with no state change; otherwise run the
tree apply (whose in-place effects on root and applied persist even when it
fails) and, only on success, record in the version vector and append to the
log. -/
def CRDTIndex.apply_remote (idx : CRDTIndex) (op : Operation) : Bool × CRDTIndex :=
  if op.id ∈ idx.applied ∨ ¬ (∀ d ∈ op.deps, d ∈ idx.applied) then (false, idx)
  else
    let r := idx.root.apply op idx.applied
    if r.2.2 then
      (true, { idx with
                root := r.1
                applied := r.2.1
                vv := VersionVector.record op.id idx.vv
                op_log := idx.op_log ++ [op] })
    else (false, { idx with root := r.1, applied := r.2.1 })

/-- Embeds `IndexCmd` (crdt_index.rs lines 286-296). -/
inductive IndexCmd where
  | localOp (mutation : Mutation) (cur : List String)
  | remoteOp (mutation : Mutation) (cur : List String)

/-- Embeds the `IndexCmd::RemoteOp` branch of the index task
(coordinator.rs lines 196-201): the received operation's own id and deps are
discarded upstream; the index builds a fresh op via `make_op` from the
mutation and cursor and hands that to `apply_remote`. -/
def processRemoteOp (peerId : String) (idx : CRDTIndex) (mutation : Mutation)
    (cur : List String) : CRDTIndex :=
  let r := idx.make_op peerId cur mutation
  (r.2.apply_remote r.1).2

/-- Embeds `FileBlob` (fswrapper.rs lines 32-38); `content` is the byte
vector, bytes as `Nat`. -/
structure FileBlob where
  name : String
  checksum : String
  size : Nat
  content : List Nat
deriving DecidableEq

/-- Embeds `PeerConnectionEvent` (p2p_network.rs lines 47-52). -/
inductive PeerConnectionEvent where
  | initialConnection (target source : String)
  | syncFile (target : String) (blob : FileBlob)
  | initialConnCompleted (target : String)
deriving DecidableEq

/-- Collects the observable effects of one `FloodsubEvent::Message` carrying a
`PeerConnectionEvent` (p2p_network.rs lines 107-151): messages published on
the topic, blobs written to disk, and completion events forwarded on
`peer_tx`. -/
structure FloodsubEffects where
  published : List PeerConnectionEvent
  written : List FileBlob
  completedSignals : List String
deriving DecidableEq

/-- Embeds the `PeerConnectionEvent` arm of the floodsub handler
(p2p_network.rs lines 111-151), with the process-wide `RECENTLY_WRITTEN` set
(watcher.rs line 20) threaded through explicitly. `localFiles` stands for
`FileBlob::collect_files_to_be_synced(base_path)`. On
`InitialConnection(target, source)` with `selfId == target`, one `SyncFile`
addressed to `source` is published per local file, then
`InitialConnCompleted(target_peer.clone())` — note: `target`, the handler's
own id, not `source`. On `SyncFile` addressed to `selfId` the blob is handed
to `write_to_disk` only: no code path in the crate ever inserts into
`RECENTLY_WRITTEN`, so it is returned unchanged by every branch. -/
def processPeerEvent (selfId : String) (localFiles : List FileBlob)
    (rw : List String) (ev : PeerConnectionEvent) :
    FloodsubEffects × List String :=
  match ev with
  | .initialConnection target source =>
      if selfId = target then
        ({ published :=
             localFiles.map (fun b => .syncFile source b) ++ [.initialConnCompleted target]
           written := []
           completedSignals := [] }, rw)
      else (⟨[], [], []⟩, rw)
  | .syncFile target blob =>
      if selfId = target then (⟨[], [blob], []⟩, rw) else (⟨[], [], []⟩, rw)
  | .initialConnCompleted target =>
      if selfId = target then (⟨[], [], [target]⟩, rw) else (⟨[], [], []⟩, rw)

/-- Splits a character list at a separator; helper for the path functions. -/
def splitSep (sep : Char) : List Char → List Char → List (List Char)
  | [], acc => [acc.reverse]
  | c :: rest, acc =>
      if c = sep then acc.reverse :: splitSep sep rest []
      else splitSep sep rest (c :: acc)

/-- Path components of a unix path string, as Rust `Path::components` yields
them: separators collapse, `CurDir`/`ParentDir`/root markers are tagged by
their literal text and empty pieces disappear. -/
def pathPieces (s : String) : List (List Char) :=
  (splitSep '/' s.data []).filter (fun c => c ≠ [])

/-- True for a `Component::Normal` piece (neither `.` nor `..`). -/
def isNormalPiece (c : List Char) : Bool :=
  c ≠ ['.'] && c ≠ ['.', '.']

/-- Embeds `last_name` (fswrapper.rs lines 215-224): `Path::file_name`, and
when that is `None` the last `Component::Normal` scanning backwards — in both
cases the last normal component of the path, `None` when there is none. -/
def last_name (s : String) : Option String :=
  ((pathPieces s).reverse.find? isNormalPiece).map (fun c => ⟨c⟩)

/-- Embeds `path_to_vec` (fswrapper.rs lines 204-213): the `Normal`
components of the path (prefixes do not arise on unix; root, `.` and `..`
are dropped). -/
def path_to_vec (s : String) : List String :=
  ((pathPieces s).filter isNormalPiece).map (fun c => ⟨c⟩)

/-- True when the first list heads the second one; helper for `containsSeq`. -/
def leadsWith : List Char → List Char → Bool
  | [], _ => true
  | _ :: _, [] => false
  | p :: ps, c :: cs => (p = c) && leadsWith ps cs

/-- True when `pat` occurs as a contiguous substring; embeds Rust
`str::contains` for the watcher's `.goutput` test. -/
def containsSeq (pat : List Char) : List Char → Bool
  | [] => pat.isEmpty
  | c :: rest => leadsWith pat (c :: rest) || containsSeq pat rest

/-- Embeds the `RECENTLY_WRITTEN` scan of the watcher event filter
(watcher.rs lines 46-53): find the first recorded name whose `last_name`
matches the event basename, remove it, and report whether one was found. -/
def consumeRecent (nameStr : String) : List String → Bool × List String
  | [] => (false, [])
  | v :: rest =>
      if last_name v = some nameStr then (true, rest)
      else
        let r := consumeRecent nameStr rest
        (r.1, v :: r.2)

/-- Embeds the skip decision of the watcher loop (watcher.rs lines 37-62) for
an event whose single path has basename `nameStr`: consume a matching
`RECENTLY_WRITTEN` entry, then skip iff the name is the index snapshot, marks
a build artifact, or was recently written. Returns (skip, set after). -/
def watcherFilter (rw : List String) (nameStr : String) : Bool × List String :=
  let r := consumeRecent nameStr rw
  ((nameStr = "index.json" : Bool) || containsSeq ".goutput".data nameStr.data || r.1, r.2)

/-- Embeds the `EventKind::Create(File/Folder)` path of the watcher loop
(watcher.rs lines 37-73 and `extract_new_cmd`, lines 112-143): if the filter
does not skip the event, a `LocalOp` carrying a `New` mutation keyed by the
relative path is sent to the index task. `relPath` stands for
`compute_file_relative_path(path)` and `meta` for
`EntryMeta::from_path(abs_path).unwrap()`. -/
def watcherOnCreate (rw : List String) (relPath : String) (meta : EntryMeta) :
    Option IndexCmd × List String :=
  let nameStr := (last_name relPath).getD ""
  let f := watcherFilter rw nameStr
  if f.1 then (none, f.2)
  else (some (.localOp (.new relPath (.entry meta)) (path_to_vec relPath)), f.2)

/-- The filesystem facts `EntryMeta::from_path` consults about one path,
gathered into a record: existence, kind, the `fs::metadata` fields, and the
SHA-256 of the content for a file. `fsName` stands for
`last_name(path).unwrap_or("empty_name")` and `relPath` for
`compute_file_relative_path(path)`. -/
structure PathInfo where
  fsName : String
  relPath : String
  pathExists : Bool
  isDir : Bool
  isFile : Bool
  accessed : Option Nat
  modified : Option Nat
  created : Option Nat
  metaSize : Nat
  mode : Nat
  contentChecksum : String

/-- Embeds `EntryMeta::from_path` (fswrapper.rs lines 116-184): error when
the path does not exist; for a directory, `is_directory := true` and no
content hash; for a file, the source also writes `is_directory: true`
(fswrapper.rs line 172) and hashes the content; otherwise error. -/
def EntryMeta.from_path (p : PathInfo) : Except String EntryMeta :=
  if ¬ p.pathExists then .error "Path not found"
  else if p.isDir then
    .ok { name := p.fsName
          path := p.relPath
          is_directory := true
          accessed := p.accessed
          modified := p.modified
          created := p.created
          size := some p.metaSize
          permissions := some p.mode
          owner := none
          content_hash := none }
  else if p.isFile then
    .ok { name := p.fsName
          path := p.relPath
          is_directory := true
          accessed := p.accessed
          modified := p.modified
          created := p.created
          size := some p.metaSize
          permissions := some p.mode
          owner := none
          content_hash := some p.contentChecksum }
  else .error "HMM.."

/-- A replica in the sense of claim C1's sources: a `JsonNode` tree plus an
applied-id set, consuming a sequence of operations through `JsonNode::apply`
(crdt.rs lines 53-99). -/
def applyAll (root : JsonNode) (applied : List LamportTimestamp) :
    List Operation → JsonNode × List LamportTimestamp
  | [] => (root, applied)
  | op :: rest =>
      let r := root.apply op applied
      applyAll r.1 r.2.1 rest

/-- States the delivery-order side condition of claim C1: a sequence respects
causal dependencies when every operation's deps are ids of operations placed
earlier in the sequence (on top of `seen`, the ids already present). -/
def causalOk (seen : List LamportTimestamp) : List Operation → Bool
  | [] => true
  | op :: rest => (decide (∀ d ∈ op.deps, d ∈ seen)) && causalOk (op.id :: seen) rest

/-- A minimal `EntryMeta` leaf payload used as concrete test data. -/
def mkMeta (n : String) : EntryMeta :=
  ⟨n, n, false, none, none, none, none, none, none, none⟩

/- Concrete test data shared by the theorems below. -/

def vA : JsonNode := .entry (mkMeta "A1")

def vB : JsonNode := .entry (mkMeta "B1")

def opA : Operation := ⟨⟨1, "A"⟩, [], [], .new "x" vA⟩

def opB : Operation := ⟨⟨1, "B"⟩, [], [], .new "x" vB⟩

def op9 : Operation := ⟨⟨1, "A"⟩, [], ["a"], .edit "k" vA⟩

def op4 : Operation := ⟨⟨1, "B"⟩, [], [], .new "x" vA⟩

def op5 : Operation := ⟨⟨1, "B"⟩, [⟨1, "Z"⟩], [], .delete "x"⟩

def idx0 : CRDTIndex := CRDTIndex.new "A" "p"

def blobA : FileBlob := ⟨"a.txt", "HA", 1, [97]⟩

def blobB : FileBlob := ⟨"b.txt", "HB", 1, [98]⟩

def blobT : FileBlob := ⟨"t.txt", "HT", 2, [104, 105]⟩

def fileInfo : PathInfo :=
  ⟨"f.txt", "f.txt", true, false, true, some 1, some 2, some 3, 2, 420, "H"⟩

/- Helper lemmas about the tree apply and the remote apply. -/

lemma mem_tsInsert {a b : LamportTimestamp} {s : List LamportTimestamp} :
    a ∈ tsInsert b s ↔ a = b ∨ a ∈ s := by
  unfold tsInsert
  split
  · rename_i h
    constructor
    · exact fun h2 => Or.inr h2
    · rintro (rfl | h2)
      · exact h
      · exact h2
  · exact List.mem_cons

lemma apply_applied_eq (n : JsonNode) (op : Operation) (s : List LamportTimestamp) :
    (JsonNode.apply n op s).2.1 =
      (if (JsonNode.apply n op s).2.2 then tsInsert op.id s else s) := by
  unfold JsonNode.apply
  split
  · rfl
  · dsimp only
    split
    · rename_i h
      simp [h]
    · rename_i h
      simp [h]

lemma apply_remote_guard (idx : CRDTIndex) (op : Operation)
    (h : op.id ∈ idx.applied ∨ ¬ (∀ d ∈ op.deps, d ∈ idx.applied)) :
    idx.apply_remote op = (false, idx) := by
  unfold CRDTIndex.apply_remote
  rw [if_pos h]

lemma apply_remote_eq_of_success (idx : CRDTIndex) (op : Operation)
    (hg : ¬ (op.id ∈ idx.applied ∨ ¬ (∀ d ∈ op.deps, d ∈ idx.applied)))
    (hr : (idx.root.apply op idx.applied).2.2 = true) :
    idx.apply_remote op =
      (true, { idx with
                root := (idx.root.apply op idx.applied).1
                applied := tsInsert op.id idx.applied
                vv := VersionVector.record op.id idx.vv
                op_log := idx.op_log ++ [op] }) := by
  unfold CRDTIndex.apply_remote
  rw [if_neg hg]
  dsimp only
  rw [if_pos hr, show (idx.root.apply op idx.applied).2.1 = tsInsert op.id idx.applied from by
    rw [apply_applied_eq, if_pos hr]]

lemma apply_remote_eq_of_failure (idx : CRDTIndex) (op : Operation)
    (hg : ¬ (op.id ∈ idx.applied ∨ ¬ (∀ d ∈ op.deps, d ∈ idx.applied)))
    (hr : (idx.root.apply op idx.applied).2.2 = false) :
    idx.apply_remote op =
      (false, { idx with
                 root := (idx.root.apply op idx.applied).1
                 applied := idx.applied }) := by
  unfold CRDTIndex.apply_remote
  rw [if_neg hg]
  dsimp only
  rw [if_neg (by simp [hr]), show (idx.root.apply op idx.applied).2.1 = idx.applied from by
    rw [apply_applied_eq, hr]; rfl]

lemma apply_remote_clock (idx : CRDTIndex) (op : Operation) :
    (idx.apply_remote op).2.clock = idx.clock := by
  by_cases hg : op.id ∈ idx.applied ∨ ¬ (∀ d ∈ op.deps, d ∈ idx.applied)
  · rw [apply_remote_guard idx op hg]
  · by_cases hr : (idx.root.apply op idx.applied).2.2 = true
    · rw [apply_remote_eq_of_success idx op hg hr]
    · rw [apply_remote_eq_of_failure idx op hg (by simpa using hr)]

/-- Claim C1: the tree CRDT does not converge. The two concurrent `New`
operations on key `x` — `opA` with id (1,"A") and `opB` with id (1,"B"),
both with empty deps — form causally-respecting delivery orders in either
direction, yet the two replicas end with different trees: the replica that
applies `opA` last keeps `opA`'s value, because `JsonNode::apply` performs a
plain overwrite with no `LamportTimestamp` comparison, so the greater
timestamp (1,"B") does not win on both replicas. -/
theorem json_apply_order_divergence :
    [opA, opB].Perm [opB, opA] ∧
    causalOk [] [opA, opB] = true ∧
    causalOk [] [opB, opA] = true ∧
    (applyAll (.mapN []) [] [opA, opB]).1 ≠ (applyAll (.mapN []) [] [opB, opA]).1 := by
  refine ⟨List.Perm.swap opB opA [], by decide, by decide, ?_⟩
  show JsonNode.mapN [("x", vB)] ≠ JsonNode.mapN [("x", vA)]
  simp [vA, vB, mkMeta]

/-- Claim C2: one local command does NOT produce exactly one operation.
Evaluating `apply_local_op` once on a fresh index (the scenario-1 local
create) leaves TWO operations in the log — the mutation branch dispatches to
`CRDTIndex::insert`, which already stamps and records an op, and then
`apply_local_op` stamps and records a second one via `make_op` — and the
Lamport clock has been incremented twice; the op returned for broadcast is
the second of the two. -/
theorem apply_local_op_double_records :
    (CRDTIndex.apply_local_op "A" idx0 ["docs"]
        (.new "docs/readme.txt" (.entry (mkMeta "readme.txt")))).2.op_log.length = 2 ∧
    (CRDTIndex.apply_local_op "A" idx0 ["docs"]
        (.new "docs/readme.txt" (.entry (mkMeta "readme.txt")))).2.clock = 2 ∧
    (CRDTIndex.apply_local_op "A" idx0 ["docs"]
        (.new "docs/readme.txt" (.entry (mkMeta "readme.txt")))).2.op_log.map (·.id)
      = [⟨1, "A"⟩, ⟨2, "A"⟩] ∧
    (CRDTIndex.apply_local_op "A" idx0 ["docs"]
        (.new "docs/readme.txt" (.entry (mkMeta "readme.txt")))).1.id = ⟨2, "A"⟩ := by
  decide

/-- Claim C3, counterexample: after one `apply_local_op` carrying an `Edit`
of a missing key on a fresh index, the op log holds the ids (1,"A") and
(2,"A") while `applied` is still empty — `record_apply` pushes an operation
to the log even when the tree apply fails — so `applied` differs from
`{ op.id | op ∈ opLog }` right after an apply through `applyLocal`. -/
theorem applied_oplog_invariant_fails_locally :
    (⟨1, "A"⟩ : LamportTimestamp) ∈
      (CRDTIndex.apply_local_op "A" idx0 [] (.edit "x" vA)).2.op_log.map (·.id) ∧
    (⟨1, "A"⟩ : LamportTimestamp) ∉
      (CRDTIndex.apply_local_op "A" idx0 [] (.edit "x" vA)).2.applied := by
  decide

/-- Claim C3, amended: the bookkeeping invariant `applied = { op.id | op ∈
opLog }` is preserved by every `apply_remote` (which records an op in the log
only when the tree apply succeeded, and the tree apply records the id in
`applied` exactly then), and every op accepted by `apply_remote` has its id
in `applied` and its deps inside `applied` afterwards. Through `applyLocal`
the equality can break, because a failed tree apply still appends to the log
(see the counterexample). -/
theorem applied_oplog_invariant_remote (idx : CRDTIndex) (op : Operation)
    (hinv : ∀ ts, ts ∈ idx.applied ↔ ts ∈ idx.op_log.map (·.id)) :
    (∀ ts, ts ∈ (idx.apply_remote op).2.applied ↔
      ts ∈ (idx.apply_remote op).2.op_log.map (·.id)) ∧
    ((idx.apply_remote op).1 = true →
      op.id ∈ (idx.apply_remote op).2.applied ∧
      ∀ d ∈ op.deps, d ∈ (idx.apply_remote op).2.applied) := by
  by_cases hg : op.id ∈ idx.applied ∨ ¬ (∀ d ∈ op.deps, d ∈ idx.applied)
  · rw [apply_remote_guard idx op hg]
    exact ⟨hinv, by simp⟩
  · push_neg at hg
    obtain ⟨hdup, hdeps⟩ := hg
    by_cases hr : (idx.root.apply op idx.applied).2.2 = true
    · rw [apply_remote_eq_of_success idx op (by push_neg; exact ⟨hdup, hdeps⟩) hr]
      refine ⟨?_, ?_⟩
      · intro ts
        simp only [List.map_append, List.map_cons, List.map_nil, List.mem_append,
          List.mem_singleton, mem_tsInsert, hinv ts]
        tauto
      · intro _
        refine ⟨mem_tsInsert.mpr (Or.inl rfl), fun d hd => ?_⟩
        exact mem_tsInsert.mpr (Or.inr (hdeps d hd))
    · rw [apply_remote_eq_of_failure idx op (by push_neg; exact ⟨hdup, hdeps⟩)
        (by simpa using hr)]
      exact ⟨hinv, by simp⟩

/-- Witness for the amended C3 theorem at a concrete input: the fresh index
satisfies the invariant, and the accepted op `op4` lands in `applied`. -/
theorem applied_oplog_invariant_remote_witness :
    op4.id ∈ (idx0.apply_remote op4).2.applied :=
  ((applied_oplog_invariant_remote idx0 op4 (fun _ => Iff.rfl)).2 (by decide)).1

/-- Claim C4: `apply_remote` is idempotent. A first call that returns true
records `op.id` in `applied`, so the second call on the resulting index hits
the duplicate guard: it returns false and leaves the state untouched. -/
theorem apply_remote_idempotent (idx : CRDTIndex) (op : Operation)
    (h : (idx.apply_remote op).1 = true) :
    ((idx.apply_remote op).2.apply_remote op).1 = false ∧
    ((idx.apply_remote op).2.apply_remote op).2 = (idx.apply_remote op).2 := by
  by_cases hg : op.id ∈ idx.applied ∨ ¬ (∀ d ∈ op.deps, d ∈ idx.applied)
  · rw [apply_remote_guard idx op hg] at h
    simp at h
  · by_cases hr : (idx.root.apply op idx.applied).2.2 = true
    · have hstate := apply_remote_eq_of_success idx op hg hr
      have hmem : op.id ∈ (idx.apply_remote op).2.applied := by
        rw [hstate]
        exact mem_tsInsert.mpr (Or.inl rfl)
      rw [apply_remote_guard (idx.apply_remote op).2 op (Or.inl hmem)]
      exact ⟨rfl, rfl⟩
    · rw [apply_remote_eq_of_failure idx op hg (by simpa using hr)] at h
      simp at h

/-- Witness for C4 at a concrete input: `op4` on the fresh index is accepted,
and re-applying it is refused. -/
theorem apply_remote_idempotent_witness :
    ((idx0.apply_remote op4).2.apply_remote op4).1 = false :=
  (apply_remote_idempotent idx0 op4 (by decide)).1

/-- Claim C5: the causal-order guard is side-effect free. When `op.deps` is
not a subset of `applied`, `apply_remote` returns false and the whole index
state — root, clock, vv, applied, op log — is returned unchanged. -/
theorem apply_remote_missing_deps_noop (idx : CRDTIndex) (op : Operation)
    (h : ¬ (∀ d ∈ op.deps, d ∈ idx.applied)) :
    idx.apply_remote op = (false, idx) :=
  apply_remote_guard idx op (Or.inr h)

/-- Witness for C5 at a concrete input: `op5` names the never-seen dep
(1,"Z"), and applying it to the fresh index is a no-op returning false. -/
theorem apply_remote_missing_deps_noop_witness :
    idx0.apply_remote op5 = (false, idx0) :=
  apply_remote_missing_deps_noop idx0 op5 (by decide)

/-- Claim C6: after pushing the last `SyncFile`, the bootstrap peer publishes
`InitialConnCompleted(target_peer)` — its OWN id — not the joiner's id
`source`. Here bootstrap "P1" handles `InitialConnection("P1", "P2")` and the
completion event carries "P1"; the joiner "P2", which forwards completion
only when the carried id equals its own, therefore signals nothing and never
exits its handshake loop. -/
theorem initial_conn_completed_misaddressed :
    (processPeerEvent "P1" [blobA, blobB] [] (.initialConnection "P1" "P2")).1.published
      = [.syncFile "P2" blobA, .syncFile "P2" blobB, .initialConnCompleted "P1"] ∧
    ("P1" : String) ≠ "P2" ∧
    (processPeerEvent "P2" [] [] (.initialConnCompleted "P1")).1.completedSignals = [] := by
  decide

/-- Claim C7: a `SyncFile` addressed to this peer writes the blob WITHOUT
first inserting its basename into `RECENTLY_WRITTEN` — no code path in the
crate inserts into that set — so the subsequent filesystem create event for
`t.txt` is not suppressed and the watcher emits a local `New` operation. -/
theorem sync_file_skips_recently_written :
    (processPeerEvent "R" [] [] (.syncFile "R" blobT)).1.written = [blobT] ∧
    (processPeerEvent "R" [] [] (.syncFile "R" blobT)).2 = [] ∧
    (watcherOnCreate [] "t.txt" (mkMeta "t.txt")).1
      = some (.localOp (.new "t.txt" (.entry (mkMeta "t.txt"))) ["t.txt"]) :=
  ⟨rfl, rfl, rfl⟩

/-- Claim C8: `EntryMeta::from_path` on a regular file (exists, not a
directory) returns `is_directory = true` — fswrapper.rs line 172 writes
`is_directory: true` in the file branch — together with a `Some` content
hash, so neither "is_directory is false for a regular file" nor
"content_hash is None whenever is_directory is true" holds. -/
theorem from_path_marks_file_as_directory :
    fileInfo.pathExists = true ∧ fileInfo.isDir = false ∧ fileInfo.isFile = true ∧
    (EntryMeta.from_path fileInfo).toOption.map (·.is_directory) = some true ∧
    (EntryMeta.from_path fileInfo).toOption.map (·.content_hash) = some (some "H") := by
  decide

/-- Claim C9: a failed apply can still mutate the tree. `op9` is an `Edit`
whose cursor names the absent segment "a" and whose key "k" is missing at the
target: `JsonNode::apply` on the empty root returns false, yet the tree
afterwards contains the empty map auto-created while walking the cursor. -/
theorem failed_apply_mutates_tree :
    (JsonNode.apply (.mapN []) op9 []).2.2 = false ∧
    (JsonNode.apply (.mapN []) op9 []).1 ≠ .mapN [] := by
  refine ⟨rfl, ?_⟩
  show JsonNode.mapN [("a", .mapN [])] ≠ JsonNode.mapN []
  simp

/-- Claim C10: the index task restamps remote operations. The op handed to
`apply_remote` by the `IndexCmd::RemoteOp` branch is built by `make_op` with
a freshly incremented local Lamport id stamped with the local peer id and
with the local dependency frontier; under the clock invariant (every applied
timestamp's counter is at most the clock) the fresh id is not in `applied`,
so the duplicate check cannot reject it; and processing the same broadcast a
second time builds a different id. -/
theorem remote_ops_restamped (peerId : String) (idx : CRDTIndex) (cur : List String)
    (mu : Mutation) (h : ∀ ts ∈ idx.applied, ts.counter ≤ idx.clock) :
    (idx.make_op peerId cur mu).1.id = ⟨idx.clock + 1, peerId⟩ ∧
    (idx.make_op peerId cur mu).1.deps = idx.current_deps ∧
    (idx.make_op peerId cur mu).2.applied = idx.applied ∧
    (idx.make_op peerId cur mu).1.id ∉ idx.applied ∧
    (processRemoteOp peerId idx mu cur).clock = idx.clock + 1 ∧
    ((processRemoteOp peerId idx mu cur).make_op peerId cur mu).1.id
      ≠ (idx.make_op peerId cur mu).1.id := by
  have hclock : (processRemoteOp peerId idx mu cur).clock = idx.clock + 1 := by
    unfold processRemoteOp
    rw [apply_remote_clock]
    rfl
  refine ⟨rfl, rfl, rfl, ?_, hclock, ?_⟩
  · intro hmem
    have hle := h _ hmem
    simp only [CRDTIndex.make_op, CRDTIndex.next_ts] at hle
    omega
  · intro heq
    have hc : (processRemoteOp peerId idx mu cur).clock + 1 = idx.clock + 1 := by
      have := congrArg LamportTimestamp.counter heq
      simpa [CRDTIndex.make_op, CRDTIndex.next_ts] using this
    rw [hclock] at hc
    omega

/-- Witness for C10 at a concrete input: the fresh index satisfies the clock
invariant and the restamped id (1,"A") is not in the applied set. -/
theorem remote_ops_restamped_witness :
    (idx0.make_op "A" [] (.delete "k")).1.id = ⟨1, "A"⟩ ∧
    (idx0.make_op "A" [] (.delete "k")).1.id ∉ idx0.applied :=
  ⟨(remote_ops_restamped "A" idx0 [] (.delete "k") (by decide)).1,
   (remote_ops_restamped "A" idx0 [] (.delete "k") (by decide)).2.2.2.1⟩

end AtlasSync
